import Mathlib

/-!
Shallow embedding of the leaf-disease-detection service
(`leaf-disease-detection/main.py`), and verification of the extractor
`parse_analysis_response` together with the `/analyze` endpoint's
error handling.

Python strings are modelled as `List Char`.  The Python library calls
used by the code are modelled faithfully:

* `str.strip()` removes leading and trailing whitespace
  (space, tab, newline, carriage return, vertical tab, form feed);
* `str.split(sep)` with a one-character separator splits on every
  occurrence of the separator and keeps empty segments
  (`"".split(sep) == [""]`), which is `List.splitOn`;
* `str.replace(old, "")` removes every non-overlapping occurrence of
  `old`, scanning left to right;
* `str.startswith(t)` is `List.isPrefixOf`;
* `s[:200]` is `List.take 200`.
-/

namespace LeafDisease

/-- Whitespace characters removed by Python's `str.strip()` (ASCII range). -/
def isSpace (c : Char) : Bool :=
  c = ' ' || c = '\t' || c = '\n' || c = '\r' || c = '\x0b' || c = '\x0c'

/-- Python `str.lstrip()`. -/
def lstrip (s : List Char) : List Char := s.dropWhile isSpace

/-- Python `str.rstrip()`. -/
def rstrip (s : List Char) : List Char := (s.reverse.dropWhile isSpace).reverse

/-- Python `str.strip()`: remove leading and trailing whitespace. -/
def strip (s : List Char) : List Char := rstrip (lstrip s)

/-- Auxiliary for `removeAll`, with explicit fuel so that the recursion is
structural (the fuel bounds the number of scanning steps; each step consumes
at least one character, so `s.length` fuel suffices). -/
def removeAllAux (pat : List Char) : Nat → List Char → List Char
  | 0, s => s
  | _ + 1, [] => []
  | fuel + 1, c :: rest =>
    if pat ≠ [] ∧ pat.isPrefixOf (c :: rest) then
      removeAllAux pat fuel ((c :: rest).drop pat.length)
    else
      c :: removeAllAux pat fuel rest

/-- Python `s.replace(pat, "")`: remove every non-overlapping occurrence of
`pat` from `s`, scanning left to right. -/
def removeAll (pat s : List Char) : List Char := removeAllAux pat s.length s

/-- The list-field value parser of `parse_analysis_response`:
Python `[x.strip() for x in text.split(';') if x.strip()]`
(split on the semicolon, trim each segment, drop empty segments). -/
def splitSemis (text : List Char) : List (List Char) :=
  ((text.splitOn ';').map strip).filter (fun x => !x.isEmpty)

/-- The tag `"DISEASE NAME:"`. -/
def diseaseTag : List Char := "DISEASE NAME:".toList

/-- The tag `"CONFIDENCE:"`. -/
def confidenceTag : List Char := "CONFIDENCE:".toList

/-- The tag `"DESCRIPTION:"`. -/
def descriptionTag : List Char := "DESCRIPTION:".toList

/-- The tag `"SYMPTOMS:"`. -/
def symptomsTag : List Char := "SYMPTOMS:".toList

/-- The tag `"TREATMENT:"`. -/
def treatmentTag : List Char := "TREATMENT:".toList

/-- The tag `"PREVENTION:"`. -/
def preventionTag : List Char := "PREVENTION:".toList

/-- The tag `"SEVERITY:"`. -/
def severityTag : List Char := "SEVERITY:".toList

/-- All seven tags recognised by the parser. -/
def allTags : List (List Char) :=
  [diseaseTag, confidenceTag, descriptionTag, symptomsTag,
   treatmentTag, preventionTag, severityTag]

/-- The record built by `parse_analysis_response` (the `analysis` dict;
the `timestamp` key is added by the endpoint afterwards and is not part
of the parser's output). -/
structure Analysis where
  disease_name : List Char
  confidence : List Char
  description : List Char
  symptoms : List (List Char)
  treatment : List (List Char)
  prevention : List (List Char)
  severity : List Char
deriving DecidableEq

/-- The initial `analysis` dict of `parse_analysis_response`. -/
def defaultAnalysis : Analysis where
  disease_name := "Unknown".toList
  confidence := "Medium".toList
  description := []
  symptoms := []
  treatment := []
  prevention := []
  severity := "Unknown".toList

/-- The body of the `for line in lines` loop, after `line = line.strip()`:
the `if not line: continue` guard followed by the `elif` chain over the
seven tags.  `line` is the already-stripped line. -/
def parseStepStripped (analysis : Analysis) (line : List Char) : Analysis :=
  if line = [] then analysis
  else if diseaseTag.isPrefixOf line then
    { analysis with disease_name := strip (removeAll diseaseTag line) }
  else if confidenceTag.isPrefixOf line then
    { analysis with confidence := strip (removeAll confidenceTag line) }
  else if descriptionTag.isPrefixOf line then
    { analysis with description := strip (removeAll descriptionTag line) }
  else if symptomsTag.isPrefixOf line then
    { analysis with symptoms := splitSemis (strip (removeAll symptomsTag line)) }
  else if treatmentTag.isPrefixOf line then
    { analysis with treatment := splitSemis (strip (removeAll treatmentTag line)) }
  else if preventionTag.isPrefixOf line then
    { analysis with prevention := splitSemis (strip (removeAll preventionTag line)) }
  else if severityTag.isPrefixOf line then
    { analysis with severity := strip (removeAll severityTag line) }
  else analysis

/-- One iteration of the `for line in lines` loop
(`line = line.strip()` and then the tag dispatch). -/
def parseStep (analysis : Analysis) (line : List Char) : Analysis :=
  parseStepStripped analysis (strip line)

/-- `lines = response_text.strip().split('\n')`. -/
def linesOf (response_text : List Char) : List (List Char) :=
  (strip response_text).splitOn '\n'

/-- The ellipsis marker appended by the description fallback. -/
def ellipsis : List Char := "...".toList

/-- The single-item fallback for `symptoms`. -/
def symptomsFallbackItem : List Char :=
  "Analysis completed - check description for details".toList

/-- The single-item fallback for `treatment`. -/
def treatmentFallbackItem : List Char :=
  "Consult with agricultural expert for specific treatment".toList

/-- The single-item fallback for `prevention`. -/
def preventionFallbackItem : List Char :=
  "Maintain proper plant hygiene and monitoring".toList

/-- `if not analysis["description"] and len(lines) > 0:` fallback. -/
def descFallback (response_text : List Char) (lines : List (List Char))
    (a : Analysis) : Analysis :=
  if a.description = [] ∧ 0 < lines.length then
    { a with description := response_text.take 200 ++ ellipsis }
  else a

/-- `if not analysis["symptoms"]:` fallback. -/
def symptomsFallback (a : Analysis) : Analysis :=
  if a.symptoms = [] then { a with symptoms := [symptomsFallbackItem] } else a

/-- `if not analysis["treatment"]:` fallback. -/
def treatmentFallback (a : Analysis) : Analysis :=
  if a.treatment = [] then { a with treatment := [treatmentFallbackItem] } else a

/-- `if not analysis["prevention"]:` fallback. -/
def preventionFallback (a : Analysis) : Analysis :=
  if a.prevention = [] then { a with prevention := [preventionFallbackItem] } else a

/-- `parse_analysis_response` from `main.py`: split the stripped text into
lines, run the tag-dispatch loop starting from the default record, then
apply the four fallback passes in order. -/
def parse_analysis_response (response_text : List Char) : Analysis :=
  preventionFallback (treatmentFallback (symptomsFallback
    (descFallback response_text (linesOf response_text)
      ((linesOf response_text).foldl parseStep defaultAnalysis))))

/-- Exceptions relevant to the `/analyze` endpoint: FastAPI's
`HTTPException(status_code, detail)` and any other exception,
identified by its `str()`. -/
inductive PyExc where
  | http (status : Nat) (detail : List Char)
  | other (msg : List Char)
deriving DecidableEq

/-- Python `str(e)`: Starlette's `HTTPException.__str__` renders
`f"«status_code»: «detail»"`; for other exceptions we take the message. -/
def strOfExc : PyExc → List Char
  | .http s d => Nat.toDigits 10 s ++ ": ".toList ++ d
  | .other m => m

/-- The content-type guard prefix `"image/"`. -/
def imageSlash : List Char := "image/".toList

/-- The body of the `try` block of `analyze_leaf`: validate the content
type (raising `HTTPException(400, ...)` on failure), then read/encode the
file and call the Groq API.  The external interaction is the oracle
parameter `groq`: either the response text or a raised exception. -/
def analyzeBody (content_type : List Char)
    (groq : Except PyExc (List Char)) : Except PyExc Analysis :=
  if imageSlash.isPrefixOf content_type = false then
    Except.error (.http 400 "File must be an image (JPEG, PNG, etc.)".toList)
  else
    match groq with
    | .error e => Except.error e
    | .ok text => Except.ok (parse_analysis_response text)

/-- `analyze_leaf` from `main.py`: the `try` body wrapped in the blanket
`except Exception as e` handler, which re-raises any exception as
`HTTPException(500, f"Error analyzing image: «str e»")`. -/
def analyze_leaf (content_type : List Char)
    (groq : Except PyExc (List Char)) : Except PyExc Analysis :=
  match analyzeBody content_type groq with
  | .ok a => Except.ok a
  | .error e =>
      Except.error (.http 500 ("Error analyzing image: ".toList ++ strOfExc e))

/-! ### Helper lemmas about tags and the loop -/

/-- Two lists that are both prefixes of a third list are comparable. -/
theorem both_pre_total (t1 t2 line : List Char) (h1 : t1.isPrefixOf line = true)
    (h2 : t2.isPrefixOf line = true) :
    t1.isPrefixOf t2 = true ∨ t2.isPrefixOf t1 = true := by
  have hp1 : t1 <+: line := List.isPrefixOf_iff_prefix.mp h1
  have hp2 : t2 <+: line := List.isPrefixOf_iff_prefix.mp h2
  rcases List.prefix_or_prefix_of_prefix hp1 hp2 with hp | hp
  · exact Or.inl ( List.isPrefixOf_iff_prefix.mpr hp)
  · exact Or.inr ( List.isPrefixOf_iff_prefix.mpr hp)

/-- If neither of two lists is a prefix of the other, they cannot both be
prefixes of the same line. -/
theorem pre_excl (t1 t2 line : List Char) (h12 : t1.isPrefixOf t2 = false)
    (h21 : t2.isPrefixOf t1 = false) (h : t2.isPrefixOf line = true) :
    t1.isPrefixOf line = false := by
  cases hc : t1.isPrefixOf line with
  | false => rfl
  | true =>
    rcases both_pre_total t1 t2 line hc h with hp | hp
    · rw [h12] at hp; exact absurd hp (by simp)
    · rw [h21] at hp; exact absurd hp (by simp)

/-- A line with a tag prefix is non-empty. -/
theorem tagged_ne_nil (t line : List Char) (ht : t ≠ [])
    (h : t.isPrefixOf line = true) : ¬(line = []) := by
  intro he
  subst he
  cases t with
  | nil => exact ht rfl
  | cons c cs => simp [List.isPrefixOf] at h

/-- Effect of one (stripped-line) loop iteration on `disease_name`. -/
theorem stepStripped_disease (a : Analysis) (line : List Char) :
    (parseStepStripped a line).disease_name =
      if diseaseTag.isPrefixOf line then strip (removeAll diseaseTag line)
      else a.disease_name := by
  by_cases h : diseaseTag.isPrefixOf line
  · have hne := tagged_ne_nil diseaseTag line (by decide) h
    simp [parseStepStripped, hne, h]
  · have hb : diseaseTag.isPrefixOf line = false := Bool.eq_false_iff.mpr h
    simp only [parseStepStripped, hb, Bool.false_eq_true, if_false]
    split_ifs <;> rfl

/-- Effect of one (stripped-line) loop iteration on `confidence`. -/
theorem stepStripped_confidence (a : Analysis) (line : List Char) :
    (parseStepStripped a line).confidence =
      if confidenceTag.isPrefixOf line then strip (removeAll confidenceTag line)
      else a.confidence := by
  by_cases h : confidenceTag.isPrefixOf line
  · have hne := tagged_ne_nil confidenceTag line (by decide) h
    have e1 := pre_excl diseaseTag confidenceTag line (by decide) (by decide) h
    simp [parseStepStripped, hne, h, e1]
  · have hb : confidenceTag.isPrefixOf line = false := Bool.eq_false_iff.mpr h
    simp only [parseStepStripped, hb, Bool.false_eq_true, if_false]
    split_ifs <;> rfl

/-- Effect of one (stripped-line) loop iteration on `description`. -/
theorem stepStripped_description (a : Analysis) (line : List Char) :
    (parseStepStripped a line).description =
      if descriptionTag.isPrefixOf line then strip (removeAll descriptionTag line)
      else a.description := by
  by_cases h : descriptionTag.isPrefixOf line
  · have hne := tagged_ne_nil descriptionTag line (by decide) h
    have e1 := pre_excl diseaseTag descriptionTag line (by decide) (by decide) h
    have e2 := pre_excl confidenceTag descriptionTag line (by decide) (by decide) h
    simp [parseStepStripped, hne, h, e1, e2]
  · have hb : descriptionTag.isPrefixOf line = false := Bool.eq_false_iff.mpr h
    simp only [parseStepStripped, hb, Bool.false_eq_true, if_false]
    split_ifs <;> rfl

/-- Effect of one (stripped-line) loop iteration on `symptoms`. -/
theorem stepStripped_symptoms (a : Analysis) (line : List Char) :
    (parseStepStripped a line).symptoms =
      if symptomsTag.isPrefixOf line then
        splitSemis (strip (removeAll symptomsTag line))
      else a.symptoms := by
  by_cases h : symptomsTag.isPrefixOf line
  · have hne := tagged_ne_nil symptomsTag line (by decide) h
    have e1 := pre_excl diseaseTag symptomsTag line (by decide) (by decide) h
    have e2 := pre_excl confidenceTag symptomsTag line (by decide) (by decide) h
    have e3 := pre_excl descriptionTag symptomsTag line (by decide) (by decide) h
    simp [parseStepStripped, hne, h, e1, e2, e3]
  · have hb : symptomsTag.isPrefixOf line = false := Bool.eq_false_iff.mpr h
    simp only [parseStepStripped, hb, Bool.false_eq_true, if_false]
    split_ifs <;> rfl

/-- Effect of one (stripped-line) loop iteration on `treatment`. -/
theorem stepStripped_treatment (a : Analysis) (line : List Char) :
    (parseStepStripped a line).treatment =
      if treatmentTag.isPrefixOf line then
        splitSemis (strip (removeAll treatmentTag line))
      else a.treatment := by
  by_cases h : treatmentTag.isPrefixOf line
  · have hne := tagged_ne_nil treatmentTag line (by decide) h
    have e1 := pre_excl diseaseTag treatmentTag line (by decide) (by decide) h
    have e2 := pre_excl confidenceTag treatmentTag line (by decide) (by decide) h
    have e3 := pre_excl descriptionTag treatmentTag line (by decide) (by decide) h
    have e4 := pre_excl symptomsTag treatmentTag line (by decide) (by decide) h
    simp [parseStepStripped, hne, h, e1, e2, e3, e4]
  · have hb : treatmentTag.isPrefixOf line = false := Bool.eq_false_iff.mpr h
    simp only [parseStepStripped, hb, Bool.false_eq_true, if_false]
    split_ifs <;> rfl

/-- Effect of one (stripped-line) loop iteration on `prevention`. -/
theorem stepStripped_prevention (a : Analysis) (line : List Char) :
    (parseStepStripped a line).prevention =
      if preventionTag.isPrefixOf line then
        splitSemis (strip (removeAll preventionTag line))
      else a.prevention := by
  by_cases h : preventionTag.isPrefixOf line
  · have hne := tagged_ne_nil preventionTag line (by decide) h
    have e1 := pre_excl diseaseTag preventionTag line (by decide) (by decide) h
    have e2 := pre_excl confidenceTag preventionTag line (by decide) (by decide) h
    have e3 := pre_excl descriptionTag preventionTag line (by decide) (by decide) h
    have e4 := pre_excl symptomsTag preventionTag line (by decide) (by decide) h
    have e5 := pre_excl treatmentTag preventionTag line (by decide) (by decide) h
    simp [parseStepStripped, hne, h, e1, e2, e3, e4, e5]
  · have hb : preventionTag.isPrefixOf line = false := Bool.eq_false_iff.mpr h
    simp only [parseStepStripped, hb, Bool.false_eq_true, if_false]
    split_ifs <;> rfl

/-- Effect of one (stripped-line) loop iteration on `severity`. -/
theorem stepStripped_severity (a : Analysis) (line : List Char) :
    (parseStepStripped a line).severity =
      if severityTag.isPrefixOf line then strip (removeAll severityTag line)
      else a.severity := by
  by_cases h : severityTag.isPrefixOf line
  · have hne := tagged_ne_nil severityTag line (by decide) h
    have e1 := pre_excl diseaseTag severityTag line (by decide) (by decide) h
    have e2 := pre_excl confidenceTag severityTag line (by decide) (by decide) h
    have e3 := pre_excl descriptionTag severityTag line (by decide) (by decide) h
    have e4 := pre_excl symptomsTag severityTag line (by decide) (by decide) h
    have e5 := pre_excl treatmentTag severityTag line (by decide) (by decide) h
    have e6 := pre_excl preventionTag severityTag line (by decide) (by decide) h
    simp [parseStepStripped, hne, h, e1, e2, e3, e4, e5, e6]
  · have hb : severityTag.isPrefixOf line = false := Bool.eq_false_iff.mpr h
    simp only [parseStepStripped, hb, Bool.false_eq_true, if_false]
    split_ifs <;> rfl

/-- The stripped form of the last line (in list order) whose stripped text
starts with the tag `t`, if any: the line whose assignment survives the
single linear pass of the loop. -/
def lastTagged (t : List Char) : List (List Char) → Option (List Char)
  | [] => none
  | l :: rest =>
    match lastTagged t rest with
    | some x => some x
    | none => if t.isPrefixOf (strip l) then some (strip l) else none

/-- Unfolding equation of `lastTagged` on a cons cell. -/
theorem lastTagged_cons (t l : List Char) (rest : List (List Char)) :
    lastTagged t (l :: rest) =
      match lastTagged t rest with
      | some x => some x
      | none => if t.isPrefixOf (strip l) then some (strip l) else none := rfl

/-- Generic characterization of the loop: a field whose single-step
behaviour is "assign `v` on a tag match, else keep" ends up holding the
value from the last matching line, or its initial value if no line
matches. -/
theorem foldl_field {α : Type} (field : Analysis → α) (t : List Char)
    (v : List Char → α)
    (hstep : ∀ a l, field (parseStep a l) =
      if t.isPrefixOf (strip l) then v (strip l) else field a)
    (lines : List (List Char)) (a : Analysis) :
    field (lines.foldl parseStep a) = (lastTagged t lines).elim (field a) v := by
  induction lines generalizing a with
  | nil => rfl
  | cons l rest ih =>
    rw [List.foldl_cons, ih, lastTagged_cons]
    cases hlt : lastTagged t rest with
    | some x => rfl
    | none =>
      show field (parseStep a l) =
        (if t.isPrefixOf (strip l) then some (strip l) else none).elim (field a) v
      rw [hstep]
      by_cases hp : t.isPrefixOf (strip l)
      · rw [if_pos hp, if_pos hp]; rfl
      · rw [if_neg hp, if_neg hp]; rfl

/-- If `lastTagged` finds a line, that line is a member of the list and
matches the tag. -/
theorem lastTagged_some_mem (t : List Char) (lines : List (List Char))
    (x : List Char) (h : lastTagged t lines = some x) :
    ∃ l, l ∈ lines ∧ t.isPrefixOf (strip l) = true ∧ x = strip l := by
  induction lines with
  | nil => simp [lastTagged] at h
  | cons l rest ih =>
    rw [lastTagged_cons] at h
    cases hlt : lastTagged t rest with
    | some y =>
      rw [hlt] at h
      have hyx : y = x := Option.some_inj.mp h
      subst hyx
      obtain ⟨l', hmem, hpre, hx⟩ := ih hlt
      exact ⟨l', List.mem_cons_of_mem _ hmem, hpre, hx⟩
    | none =>
      rw [hlt] at h
      by_cases hp : t.isPrefixOf (strip l)
      · rw [if_pos hp] at h
        exact ⟨l, List.mem_cons_self _ _, hp, (Option.some_inj.mp h).symm⟩
      · rw [if_neg hp] at h
        exact absurd h (by simp)

/-- `lastTagged` finds nothing exactly when no line matches the tag. -/
theorem lastTagged_none_iff (t : List Char) (lines : List (List Char)) :
    lastTagged t lines = none ↔
      ∀ l ∈ lines, t.isPrefixOf (strip l) = false := by
  induction lines with
  | nil => simp [lastTagged]
  | cons l rest ih =>
    rw [lastTagged_cons]
    cases hlt : lastTagged t rest with
    | some y =>
      simp only [List.mem_cons]
      constructor
      · intro h; exact absurd h (by simp)
      · intro h
        have hn : lastTagged t rest = none := by
          rw [ih]
          intro l' hl'
          exact h l' (Or.inr hl')
        rw [hlt] at hn
        exact absurd hn (by simp)
    | none =>
      by_cases hp : t.isPrefixOf (strip l)
      · rw [if_pos hp]
        simp only [List.mem_cons]
        constructor
        · intro h; exact absurd h (by simp)
        · intro h
          rw [h l (Or.inl rfl)] at hp
          exact absurd hp (by simp)
      · rw [if_neg hp]
        simp only [List.mem_cons, true_iff]
        intro l' hl'
        rcases hl' with h | h
        · subst h; exact Bool.eq_false_iff.mpr hp
        · exact (ih.mp hlt) l' h

/-- If exactly one line of the list matches the tag, `lastTagged` returns
the stripped form of any matching member. -/
theorem lastTagged_of_countP_one (t : List Char) (lines : List (List Char))
    (l : List Char) (hmem : l ∈ lines) (hpre : t.isPrefixOf (strip l) = true)
    (hcount : lines.countP (fun l' => t.isPrefixOf (strip l')) = 1) :
    lastTagged t lines = some (strip l) := by
  induction lines with
  | nil => simp at hmem
  | cons l0 rest ih =>
    rw [List.countP_cons] at hcount
    rw [lastTagged_cons]
    rcases List.mem_cons.mp hmem with he | hmemr
    · subst he
      rw [hpre, if_pos rfl] at hcount
      have hrest : rest.countP (fun l' => t.isPrefixOf (strip l')) = 0 := by omega
      have hnone : lastTagged t rest = none := by
        rw [lastTagged_none_iff]
        intro l' hl'
        have hnp := List.countP_eq_zero.mp hrest l' hl'
        exact Bool.eq_false_iff.mpr hnp
      rw [hnone, if_pos hpre]
    · have hposr : 0 < rest.countP (fun l' => t.isPrefixOf (strip l')) :=
        List.countP_pos_iff.mpr ⟨l, hmemr, hpre⟩
      have hrest : rest.countP (fun l' => t.isPrefixOf (strip l')) = 1 := by omega
      rw [ih hmemr hrest]

/-! ### The fallback passes, projected field by field -/

theorem descFB_disease (raw : List Char) (lines : List (List Char)) (a : Analysis) :
    (descFallback raw lines a).disease_name = a.disease_name := by
  unfold descFallback; split_ifs <;> rfl

theorem descFB_confidence (raw : List Char) (lines : List (List Char)) (a : Analysis) :
    (descFallback raw lines a).confidence = a.confidence := by
  unfold descFallback; split_ifs <;> rfl

theorem descFB_severity (raw : List Char) (lines : List (List Char)) (a : Analysis) :
    (descFallback raw lines a).severity = a.severity := by
  unfold descFallback; split_ifs <;> rfl

theorem descFB_symptoms (raw : List Char) (lines : List (List Char)) (a : Analysis) :
    (descFallback raw lines a).symptoms = a.symptoms := by
  unfold descFallback; split_ifs <;> rfl

theorem descFB_treatment (raw : List Char) (lines : List (List Char)) (a : Analysis) :
    (descFallback raw lines a).treatment = a.treatment := by
  unfold descFallback; split_ifs <;> rfl

theorem descFB_prevention (raw : List Char) (lines : List (List Char)) (a : Analysis) :
    (descFallback raw lines a).prevention = a.prevention := by
  unfold descFallback; split_ifs <;> rfl

theorem descFB_description (raw : List Char) (lines : List (List Char)) (a : Analysis) :
    (descFallback raw lines a).description =
      if a.description = [] ∧ 0 < lines.length then raw.take 200 ++ ellipsis
      else a.description := by
  unfold descFallback; split_ifs <;> rfl

theorem sympFB_disease (a : Analysis) :
    (symptomsFallback a).disease_name = a.disease_name := by
  unfold symptomsFallback; split_ifs <;> rfl

theorem sympFB_confidence (a : Analysis) :
    (symptomsFallback a).confidence = a.confidence := by
  unfold symptomsFallback; split_ifs <;> rfl

theorem sympFB_description (a : Analysis) :
    (symptomsFallback a).description = a.description := by
  unfold symptomsFallback; split_ifs <;> rfl

theorem sympFB_severity (a : Analysis) :
    (symptomsFallback a).severity = a.severity := by
  unfold symptomsFallback; split_ifs <;> rfl

theorem sympFB_treatment (a : Analysis) :
    (symptomsFallback a).treatment = a.treatment := by
  unfold symptomsFallback; split_ifs <;> rfl

theorem sympFB_prevention (a : Analysis) :
    (symptomsFallback a).prevention = a.prevention := by
  unfold symptomsFallback; split_ifs <;> rfl

theorem sympFB_symptoms (a : Analysis) :
    (symptomsFallback a).symptoms =
      if a.symptoms = [] then [symptomsFallbackItem] else a.symptoms := by
  unfold symptomsFallback; split_ifs <;> rfl

theorem treatFB_disease (a : Analysis) :
    (treatmentFallback a).disease_name = a.disease_name := by
  unfold treatmentFallback; split_ifs <;> rfl

theorem treatFB_confidence (a : Analysis) :
    (treatmentFallback a).confidence = a.confidence := by
  unfold treatmentFallback; split_ifs <;> rfl

theorem treatFB_description (a : Analysis) :
    (treatmentFallback a).description = a.description := by
  unfold treatmentFallback; split_ifs <;> rfl

theorem treatFB_severity (a : Analysis) :
    (treatmentFallback a).severity = a.severity := by
  unfold treatmentFallback; split_ifs <;> rfl

theorem treatFB_symptoms (a : Analysis) :
    (treatmentFallback a).symptoms = a.symptoms := by
  unfold treatmentFallback; split_ifs <;> rfl

theorem treatFB_prevention (a : Analysis) :
    (treatmentFallback a).prevention = a.prevention := by
  unfold treatmentFallback; split_ifs <;> rfl

theorem treatFB_treatment (a : Analysis) :
    (treatmentFallback a).treatment =
      if a.treatment = [] then [treatmentFallbackItem] else a.treatment := by
  unfold treatmentFallback; split_ifs <;> rfl

theorem prevFB_disease (a : Analysis) :
    (preventionFallback a).disease_name = a.disease_name := by
  unfold preventionFallback; split_ifs <;> rfl

theorem prevFB_confidence (a : Analysis) :
    (preventionFallback a).confidence = a.confidence := by
  unfold preventionFallback; split_ifs <;> rfl

theorem prevFB_description (a : Analysis) :
    (preventionFallback a).description = a.description := by
  unfold preventionFallback; split_ifs <;> rfl

theorem prevFB_severity (a : Analysis) :
    (preventionFallback a).severity = a.severity := by
  unfold preventionFallback; split_ifs <;> rfl

theorem prevFB_symptoms (a : Analysis) :
    (preventionFallback a).symptoms = a.symptoms := by
  unfold preventionFallback; split_ifs <;> rfl

theorem prevFB_treatment (a : Analysis) :
    (preventionFallback a).treatment = a.treatment := by
  unfold preventionFallback; split_ifs <;> rfl

theorem prevFB_prevention (a : Analysis) :
    (preventionFallback a).prevention =
      if a.prevention = [] then [preventionFallbackItem] else a.prevention := by
  unfold preventionFallback; split_ifs <;> rfl

/-! ### Per-field characterization of `parse_analysis_response` -/

/-- `lines` is never empty: splitting a string on a separator always
yields at least one (possibly empty) segment. -/
theorem linesOf_ne_nil (s : List Char) : linesOf s ≠ [] := by
  unfold linesOf List.splitOn
  exact List.splitOnP_ne_nil _ _

theorem linesOf_length_pos (s : List Char) : 0 < (linesOf s).length :=
  List.length_pos.mpr (linesOf_ne_nil s)

/-- The value the loop leaves in a scalar-style field, given the tag. -/
def scalarVal (t x : List Char) : List Char := strip (removeAll t x)

/-- The value the loop leaves in a list-style field, given the tag. -/
def listVal (t x : List Char) : List (List Char) := splitSemis (strip (removeAll t x))

theorem parse_disease_char (s : List Char) :
    (parse_analysis_response s).disease_name =
      (lastTagged diseaseTag (linesOf s)).elim "Unknown".toList (scalarVal diseaseTag) := by
  unfold parse_analysis_response
  rw [prevFB_disease, treatFB_disease, sympFB_disease, descFB_disease]
  exact foldl_field Analysis.disease_name diseaseTag (scalarVal diseaseTag)
    (fun a l => stepStripped_disease a (strip l)) (linesOf s) defaultAnalysis

theorem parse_confidence_char (s : List Char) :
    (parse_analysis_response s).confidence =
      (lastTagged confidenceTag (linesOf s)).elim "Medium".toList (scalarVal confidenceTag) := by
  unfold parse_analysis_response
  rw [prevFB_confidence, treatFB_confidence, sympFB_confidence, descFB_confidence]
  exact foldl_field Analysis.confidence confidenceTag (scalarVal confidenceTag)
    (fun a l => stepStripped_confidence a (strip l)) (linesOf s) defaultAnalysis

theorem parse_severity_char (s : List Char) :
    (parse_analysis_response s).severity =
      (lastTagged severityTag (linesOf s)).elim "Unknown".toList (scalarVal severityTag) := by
  unfold parse_analysis_response
  rw [prevFB_severity, treatFB_severity, sympFB_severity, descFB_severity]
  exact foldl_field Analysis.severity severityTag (scalarVal severityTag)
    (fun a l => stepStripped_severity a (strip l)) (linesOf s) defaultAnalysis

theorem parse_description_char (s : List Char) :
    (parse_analysis_response s).description =
      if (lastTagged descriptionTag (linesOf s)).elim [] (scalarVal descriptionTag) = []
      then s.take 200 ++ ellipsis
      else (lastTagged descriptionTag (linesOf s)).elim [] (scalarVal descriptionTag) := by
  unfold parse_analysis_response
  rw [prevFB_description, treatFB_description, sympFB_description, descFB_description]
  have hloop := foldl_field Analysis.description descriptionTag (scalarVal descriptionTag)
    (fun a l => stepStripped_description a (strip l)) (linesOf s) defaultAnalysis
  have e : defaultAnalysis.description = ([] : List Char) := rfl
  rw [e] at hloop
  rw [hloop]
  by_cases hd : (lastTagged descriptionTag (linesOf s)).elim
      ([] : List Char) (scalarVal descriptionTag) = []
  · rw [if_pos ⟨hd, linesOf_length_pos s⟩, if_pos hd]
  · rw [if_neg (fun hc => hd hc.1), if_neg hd]

theorem parse_symptoms_char (s : List Char) :
    (parse_analysis_response s).symptoms =
      if (lastTagged symptomsTag (linesOf s)).elim [] (listVal symptomsTag) = []
      then [symptomsFallbackItem]
      else (lastTagged symptomsTag (linesOf s)).elim [] (listVal symptomsTag) := by
  unfold parse_analysis_response
  rw [prevFB_symptoms, treatFB_symptoms, sympFB_symptoms, descFB_symptoms]
  have hloop := foldl_field Analysis.symptoms symptomsTag (listVal symptomsTag)
    (fun a l => stepStripped_symptoms a (strip l)) (linesOf s) defaultAnalysis
  have e : defaultAnalysis.symptoms = ([] : List (List Char)) := rfl
  rw [e] at hloop
  rw [hloop]

theorem parse_treatment_char (s : List Char) :
    (parse_analysis_response s).treatment =
      if (lastTagged treatmentTag (linesOf s)).elim [] (listVal treatmentTag) = []
      then [treatmentFallbackItem]
      else (lastTagged treatmentTag (linesOf s)).elim [] (listVal treatmentTag) := by
  unfold parse_analysis_response
  rw [prevFB_treatment, treatFB_treatment, sympFB_treatment, descFB_treatment]
  have hloop := foldl_field Analysis.treatment treatmentTag (listVal treatmentTag)
    (fun a l => stepStripped_treatment a (strip l)) (linesOf s) defaultAnalysis
  have e : defaultAnalysis.treatment = ([] : List (List Char)) := rfl
  rw [e] at hloop
  rw [hloop]

theorem parse_prevention_char (s : List Char) :
    (parse_analysis_response s).prevention =
      if (lastTagged preventionTag (linesOf s)).elim [] (listVal preventionTag) = []
      then [preventionFallbackItem]
      else (lastTagged preventionTag (linesOf s)).elim [] (listVal preventionTag) := by
  unfold parse_analysis_response
  rw [prevFB_prevention, treatFB_prevention, sympFB_prevention, descFB_prevention]
  have hloop := foldl_field Analysis.prevention preventionTag (listVal preventionTag)
    (fun a l => stepStripped_prevention a (strip l)) (linesOf s) defaultAnalysis
  have e : defaultAnalysis.prevention = ([] : List (List Char)) := rfl
  rw [e] at hloop
  rw [hloop]

/-! ### `strip` is idempotent; elements of `splitSemis` are trimmed -/

theorem dropWhile_twice (p : Char → Bool) (l : List Char) :
    (l.dropWhile p).dropWhile p = l.dropWhile p := by
  induction l with
  | nil => rfl
  | cons c cs ih =>
    by_cases h : p c
    · rw [List.dropWhile_cons_of_pos h, ih]
    · simp [List.dropWhile_cons_of_neg h]

theorem lstrip_idem (s : List Char) : lstrip (lstrip s) = lstrip s :=
  dropWhile_twice isSpace s

theorem rstrip_idem (s : List Char) : rstrip (rstrip s) = rstrip s := by
  unfold rstrip
  rw [List.reverse_reverse, dropWhile_twice]

/-- A list fixed by `dropWhile` has a head that fails the predicate. -/
theorem dropWhile_eq_self_head (p : Char → Bool) (c : Char) (cs : List Char)
    (h : List.dropWhile p (c :: cs) = c :: cs) : p c = false := by
  by_cases hp : p c
  · rw [List.dropWhile_cons_of_pos hp] at h
    have hlen := congrArg List.length h
    have hle := ( List.dropWhile_sublist (l := cs) p).length_le
    simp only [List.length_cons] at hlen
    omega
  · exact Bool.eq_false_iff.mpr hp

/-- `rstrip` returns a prefix of its argument. -/
theorem rstrip_pre (y : List Char) : rstrip y <+: y := by
  unfold rstrip
  have hsuf : y.reverse.dropWhile isSpace <:+ y.reverse :=
    List.dropWhile_suffix isSpace
  have hp := List.reverse_prefix.mpr hsuf
  simpa using hp

/-- If `y` has no leading whitespace, neither has `rstrip y`. -/
theorem lstrip_rstrip (y : List Char) (h : lstrip y = y) :
    lstrip (rstrip y) = rstrip y := by
  cases hy : rstrip y with
  | nil => rfl
  | cons d ds =>
    cases y with
    | nil =>
      rw [show rstrip ([] : List Char) = [] from rfl] at hy
      cases hy
    | cons c cs =>
      have hpc : isSpace c = false := dropWhile_eq_self_head isSpace c cs h
      have hpre : rstrip (c :: cs) <+: (c :: cs) := rstrip_pre _
      rw [hy] at hpre
      obtain ⟨t, ht⟩ := hpre
      rw [List.cons_append] at ht
      have hd : d = c := (List.cons.injEq _ _ _ _).mp ht |>.1
      subst hd
      show List.dropWhile isSpace (d :: ds) = d :: ds
      rw [List.dropWhile_cons_of_neg (by simp [hpc])]

theorem strip_idem (s : List Char) : strip (strip s) = strip s := by
  unfold strip
  rw [lstrip_rstrip (lstrip s) (lstrip_idem s), rstrip_idem]

/-- Every element of `splitSemis t` is non-empty and trimmed. -/
theorem splitSemis_mem (t x : List Char) (h : x ∈ splitSemis t) :
    x ≠ [] ∧ strip x = x := by
  unfold splitSemis at h
  obtain ⟨hmem, hne⟩ := List.mem_filter.mp h
  obtain ⟨y, hy, hxy⟩ := List.mem_map.mp hmem
  constructor
  · intro he
    subst he
    simp [List.isEmpty] at hne
  · rw [← hxy]
    exact strip_idem y

/-- Elements of the final list fields are non-empty and trimmed: they come
from `splitSemis` via the last matching line, or are the fallback item. -/
theorem mem_list_field_aux (t fb : List Char) (o : Option (List Char))
    (x : List Char) (hfb : fb ≠ [] ∧ strip fb = fb)
    (hx : x ∈ (if o.elim [] (listVal t) = [] then [fb] else o.elim [] (listVal t))) :
    x ≠ [] ∧ strip x = x := by
  split_ifs at hx with hc
  · have hxe := List.mem_singleton.mp hx
    subst hxe
    exact hfb
  · cases o with
    | none => exact absurd rfl hc
    | some y => exact splitSemis_mem _ x hx

/-! ### Shared consequences used by several claims -/

/-- If every `DESCRIPTION:`-tagged line carries an empty value, the returned
description is the first 200 characters of the raw text plus the ellipsis. -/
theorem desc_of_all_empty (s : List Char)
    (h : ∀ l ∈ linesOf s, descriptionTag.isPrefixOf (strip l) = true →
      strip (removeAll descriptionTag (strip l)) = []) :
    (parse_analysis_response s).description = s.take 200 ++ ellipsis := by
  rw [parse_description_char]
  have hd : (lastTagged descriptionTag (linesOf s)).elim [] (scalarVal descriptionTag) = [] := by
    cases hlt : lastTagged descriptionTag (linesOf s) with
    | none => rfl
    | some x =>
      obtain ⟨l, hmem, hpre, hx⟩ := lastTagged_some_mem _ _ x hlt
      subst hx
      exact h l hmem hpre
  rw [if_pos hd]

/-! ### The claims -/

/-- Claim C1: for every input string the extractor is total — it returns a
record with all seven fields, and after the fallback pass the `symptoms`,
`treatment` and `prevention` lists are each non-empty.  (Totality holds by
construction: `parse_analysis_response` is a total function.) -/
theorem claim_C1 (s : List Char) :
    (parse_analysis_response s).symptoms ≠ [] ∧
    (parse_analysis_response s).treatment ≠ [] ∧
    (parse_analysis_response s).prevention ≠ [] := by
  refine ⟨?_, ?_, ?_⟩
  · rw [parse_symptoms_char]
    split_ifs with h
    · simp
    · exact h
  · rw [parse_treatment_char]
    split_ifs with h
    · simp
    · exact h
  · rw [parse_prevention_char]
    split_ifs with h
    · simp
    · exact h

/-- Claim C2, counterexample: on the empty input the returned description is
NOT the empty string (the claim asserts it is `""`); it is the ellipsis
marker `"..."`, because `"".strip().split('\n') == [""]` makes the
truncation-fallback guard `len(lines) > 0` true. -/
theorem claim_C2_cex :
    (parse_analysis_response []).description ≠ [] ∧
    (parse_analysis_response []).description = "...".toList := by decide

/-- Claim C2 (amended): on the empty input the extractor returns
disease_name `"Unknown"`, confidence `"Medium"`, severity `"Unknown"`,
description `"..."` (the truncation fallback DOES apply, producing the bare
ellipsis marker), and the three single-item fallback lists. -/
theorem claim_C2 :
    parse_analysis_response [] =
      { disease_name := "Unknown".toList, confidence := "Medium".toList,
        description := "...".toList, symptoms := [symptomsFallbackItem],
        treatment := [treatmentFallbackItem], prevention := [preventionFallbackItem],
        severity := "Unknown".toList } := by decide

/-- Claim C3, counterexample: an input in which each of the seven tags
appears exactly once as a line prefix, but whose disease line contains the
tag string a second time inside the value.  Python's `str.replace` removes
EVERY occurrence, so the returned field is `"A  B"`, not the verbatim
remainder `"A DISEASE NAME: B"` the claim asserts. -/
theorem claim_C3_cex :
    (linesOf ("DISEASE NAME: A DISEASE NAME: B\nCONFIDENCE: High\nDESCRIPTION: d\nSYMPTOMS: s1\nTREATMENT: t1\nPREVENTION: p1\nSEVERITY: Mild".toList)).countP
        (fun l => diseaseTag.isPrefixOf (strip l)) = 1 ∧
    (linesOf ("DISEASE NAME: A DISEASE NAME: B\nCONFIDENCE: High\nDESCRIPTION: d\nSYMPTOMS: s1\nTREATMENT: t1\nPREVENTION: p1\nSEVERITY: Mild".toList)).countP
        (fun l => confidenceTag.isPrefixOf (strip l)) = 1 ∧
    (linesOf ("DISEASE NAME: A DISEASE NAME: B\nCONFIDENCE: High\nDESCRIPTION: d\nSYMPTOMS: s1\nTREATMENT: t1\nPREVENTION: p1\nSEVERITY: Mild".toList)).countP
        (fun l => descriptionTag.isPrefixOf (strip l)) = 1 ∧
    (linesOf ("DISEASE NAME: A DISEASE NAME: B\nCONFIDENCE: High\nDESCRIPTION: d\nSYMPTOMS: s1\nTREATMENT: t1\nPREVENTION: p1\nSEVERITY: Mild".toList)).countP
        (fun l => symptomsTag.isPrefixOf (strip l)) = 1 ∧
    (linesOf ("DISEASE NAME: A DISEASE NAME: B\nCONFIDENCE: High\nDESCRIPTION: d\nSYMPTOMS: s1\nTREATMENT: t1\nPREVENTION: p1\nSEVERITY: Mild".toList)).countP
        (fun l => treatmentTag.isPrefixOf (strip l)) = 1 ∧
    (linesOf ("DISEASE NAME: A DISEASE NAME: B\nCONFIDENCE: High\nDESCRIPTION: d\nSYMPTOMS: s1\nTREATMENT: t1\nPREVENTION: p1\nSEVERITY: Mild".toList)).countP
        (fun l => preventionTag.isPrefixOf (strip l)) = 1 ∧
    (linesOf ("DISEASE NAME: A DISEASE NAME: B\nCONFIDENCE: High\nDESCRIPTION: d\nSYMPTOMS: s1\nTREATMENT: t1\nPREVENTION: p1\nSEVERITY: Mild".toList)).countP
        (fun l => severityTag.isPrefixOf (strip l)) = 1 ∧
    (parse_analysis_response ("DISEASE NAME: A DISEASE NAME: B\nCONFIDENCE: High\nDESCRIPTION: d\nSYMPTOMS: s1\nTREATMENT: t1\nPREVENTION: p1\nSEVERITY: Mild".toList)).disease_name =
      "A  B".toList ∧
    (parse_analysis_response ("DISEASE NAME: A DISEASE NAME: B\nCONFIDENCE: High\nDESCRIPTION: d\nSYMPTOMS: s1\nTREATMENT: t1\nPREVENTION: p1\nSEVERITY: Mild".toList)).disease_name ≠
      "A DISEASE NAME: B".toList := by decide

/-- Claim C3 (amended): for input in which each of the seven tags appears
exactly once as a (stripped-)line prefix, each scalar field equals the
matching line with EVERY occurrence of its tag removed, then trimmed
(Python's `replace` removes all occurrences, not just the leading one);
for `description` this additionally requires the resulting value to be
non-empty, since an empty parsed description is overwritten by the
truncation fallback. -/
theorem claim_C3 (s : List Char)
    (hcount : ∀ t ∈ allTags,
      (linesOf s).countP (fun l => t.isPrefixOf (strip l)) = 1)
    (l : List Char) (hl : l ∈ linesOf s) :
    (diseaseTag.isPrefixOf (strip l) = true →
      (parse_analysis_response s).disease_name = strip (removeAll diseaseTag (strip l))) ∧
    (confidenceTag.isPrefixOf (strip l) = true →
      (parse_analysis_response s).confidence = strip (removeAll confidenceTag (strip l))) ∧
    (severityTag.isPrefixOf (strip l) = true →
      (parse_analysis_response s).severity = strip (removeAll severityTag (strip l))) ∧
    (descriptionTag.isPrefixOf (strip l) = true →
      strip (removeAll descriptionTag (strip l)) ≠ [] →
      (parse_analysis_response s).description = strip (removeAll descriptionTag (strip l))) := by
  refine ⟨?_, ?_, ?_, ?_⟩
  · intro hp
    have hlt := lastTagged_of_countP_one diseaseTag (linesOf s) l hl hp
      (hcount diseaseTag (by decide))
    rw [parse_disease_char, hlt]
    rfl
  · intro hp
    have hlt := lastTagged_of_countP_one confidenceTag (linesOf s) l hl hp
      (hcount confidenceTag (by decide))
    rw [parse_confidence_char, hlt]
    rfl
  · intro hp
    have hlt := lastTagged_of_countP_one severityTag (linesOf s) l hl hp
      (hcount severityTag (by decide))
    rw [parse_severity_char, hlt]
    rfl
  · intro hp hne
    have hlt := lastTagged_of_countP_one descriptionTag (linesOf s) l hl hp
      (hcount descriptionTag (by decide))
    rw [parse_description_char, hlt]
    have hne' : ¬((some (strip l)).elim [] (scalarVal descriptionTag) = []) := hne
    rw [if_neg hne']
    rfl

/-- Claim C3, witness instance at a concrete well-formed input. -/
theorem claim_C3_witness :
    (parse_analysis_response ("DISEASE NAME: X\nCONFIDENCE: High\nDESCRIPTION: d\nSYMPTOMS: s\nTREATMENT: t\nPREVENTION: p\nSEVERITY: Mild".toList)).disease_name =
      strip (removeAll diseaseTag (strip ("DISEASE NAME: X".toList))) :=
  (claim_C3 ("DISEASE NAME: X\nCONFIDENCE: High\nDESCRIPTION: d\nSYMPTOMS: s\nTREATMENT: t\nPREVENTION: p\nSEVERITY: Mild".toList)
    (by decide) ("DISEASE NAME: X".toList) (by decide)).1 (by decide)

/-- Claim C4, counterexample: the input consisting of the single line
`"DISEASE NAME:"` (a tag with an empty value) yields an EMPTY
`disease_name`, refuting the invariant that scalar fields are never empty. -/
theorem claim_C4_cex :
    (parse_analysis_response ("DISEASE NAME:".toList)).disease_name = [] := by decide

/-- Claim C4 (amended): `disease_name` defaults to `"Unknown"` when no line
carries its tag, but a line consisting of exactly the tag assigns it the
empty string, so the non-emptiness invariant fails for the scalar fields
(other than `description`, which the fallback always fills). -/
theorem claim_C4 :
    (∀ s : List Char,
      (∀ l ∈ linesOf s, diseaseTag.isPrefixOf (strip l) = false) →
      (parse_analysis_response s).disease_name = "Unknown".toList) ∧
    (parse_analysis_response ("DISEASE NAME:".toList)).disease_name = [] := by
  constructor
  · intro s h
    rw [parse_disease_char, (lastTagged_none_iff diseaseTag (linesOf s)).mpr h]
    rfl
  · decide

/-- Claim C4, witness instance: an input with no tag at all keeps the
default disease name. -/
theorem claim_C4_witness :
    (parse_analysis_response "hello".toList).disease_name = "Unknown".toList :=
  claim_C4.1 "hello".toList (by decide)

/-- Claim C5, counterexample: with two `DESCRIPTION:` lines whose last
occurrence carries an empty value, the value of the last line ( `""` ) is
NOT the one present in the returned record: the description fallback
overwrites it with the truncated raw text plus ellipsis. -/
theorem claim_C5_cex :
    lastTagged descriptionTag (linesOf ("DESCRIPTION: x\nDESCRIPTION:".toList)) =
      some ("DESCRIPTION:".toList) ∧
    strip (removeAll descriptionTag ("DESCRIPTION:".toList)) = [] ∧
    (parse_analysis_response ("DESCRIPTION: x\nDESCRIPTION:".toList)).description ≠ [] ∧
    (parse_analysis_response ("DESCRIPTION: x\nDESCRIPTION:".toList)).description =
      "DESCRIPTION: x\nDESCRIPTION:".toList ++ ellipsis := by decide

/-- Claim C5 (amended): assignment is a single linear pass with no
first-match guard, so when several lines carry the same tag the LAST
occurrence's value is the one assigned, and it is the value present in the
returned record — except when that value is empty (empty string for
`description`, empty list for the list fields), in which case the
corresponding fallback value appears instead.  (`disease_name`,
`confidence` and `severity` have no fallback, so for them the last value
always survives.) -/
theorem claim_C5 (s x : List Char) :
    (lastTagged diseaseTag (linesOf s) = some x →
      (parse_analysis_response s).disease_name = strip (removeAll diseaseTag x)) ∧
    (lastTagged confidenceTag (linesOf s) = some x →
      (parse_analysis_response s).confidence = strip (removeAll confidenceTag x)) ∧
    (lastTagged severityTag (linesOf s) = some x →
      (parse_analysis_response s).severity = strip (removeAll severityTag x)) ∧
    (lastTagged descriptionTag (linesOf s) = some x →
      strip (removeAll descriptionTag x) ≠ [] →
      (parse_analysis_response s).description = strip (removeAll descriptionTag x)) ∧
    (lastTagged symptomsTag (linesOf s) = some x →
      splitSemis (strip (removeAll symptomsTag x)) ≠ [] →
      (parse_analysis_response s).symptoms = splitSemis (strip (removeAll symptomsTag x))) ∧
    (lastTagged treatmentTag (linesOf s) = some x →
      splitSemis (strip (removeAll treatmentTag x)) ≠ [] →
      (parse_analysis_response s).treatment = splitSemis (strip (removeAll treatmentTag x))) ∧
    (lastTagged preventionTag (linesOf s) = some x →
      splitSemis (strip (removeAll preventionTag x)) ≠ [] →
      (parse_analysis_response s).prevention = splitSemis (strip (removeAll preventionTag x))) := by
  refine ⟨?_, ?_, ?_, ?_, ?_, ?_, ?_⟩
  · intro hlt
    rw [parse_disease_char, hlt]
    rfl
  · intro hlt
    rw [parse_confidence_char, hlt]
    rfl
  · intro hlt
    rw [parse_severity_char, hlt]
    rfl
  · intro hlt hne
    rw [parse_description_char, hlt]
    have hne' : ¬((some x).elim [] (scalarVal descriptionTag) = []) := hne
    rw [if_neg hne']
    rfl
  · intro hlt hne
    rw [parse_symptoms_char, hlt]
    have hne' : ¬((some x).elim [] (listVal symptomsTag) = []) := hne
    rw [if_neg hne']
    rfl
  · intro hlt hne
    rw [parse_treatment_char, hlt]
    have hne' : ¬((some x).elim [] (listVal treatmentTag) = []) := hne
    rw [if_neg hne']
    rfl
  · intro hlt hne
    rw [parse_prevention_char, hlt]
    have hne' : ¬((some x).elim [] (listVal preventionTag) = []) := hne
    rw [if_neg hne']
    rfl

/-- Claim C5, witness instance: with two `CONFIDENCE:` lines the value of
the last one is returned. -/
theorem claim_C5_witness :
    (parse_analysis_response ("CONFIDENCE: High\nCONFIDENCE: Low".toList)).confidence =
      strip (removeAll confidenceTag ("CONFIDENCE: Low".toList)) :=
  (claim_C5 ("CONFIDENCE: High\nCONFIDENCE: Low".toList) ("CONFIDENCE: Low".toList)).2.1
    (by decide)

/-- Claim C6: a line matching a list-field tag has its remainder split on
the semicolon, each segment trimmed, empty segments discarded and order
preserved (the trimmed segment sequence is a sublist of the trimmed split);
`"SYMPTOMS: yellow spots; wilting;  ; curling"` yields exactly
`["yellow spots", "wilting", "curling"]`, and `"SYMPTOMS: ;;;"` yields an
empty list pre-fallback which the post-pass replaces with the single-item
fallback. -/
theorem claim_C6 :
    (∀ (a : Analysis) (l : List Char), symptomsTag.isPrefixOf (strip l) = true →
      (parseStep a l).symptoms = splitSemis (strip (removeAll symptomsTag (strip l)))) ∧
    (∀ (a : Analysis) (l : List Char), treatmentTag.isPrefixOf (strip l) = true →
      (parseStep a l).treatment = splitSemis (strip (removeAll treatmentTag (strip l)))) ∧
    (∀ (a : Analysis) (l : List Char), preventionTag.isPrefixOf (strip l) = true →
      (parseStep a l).prevention = splitSemis (strip (removeAll preventionTag (strip l)))) ∧
    (∀ t : List Char, List.Sublist (splitSemis t) ((t.splitOn ';').map strip)) ∧
    (∀ t x : List Char, x ∈ splitSemis t → x ≠ []) ∧
    (parse_analysis_response ("SYMPTOMS: yellow spots; wilting;  ; curling".toList)).symptoms =
      ["yellow spots".toList, "wilting".toList, "curling".toList] ∧
    splitSemis (strip (removeAll symptomsTag (strip ("SYMPTOMS: ;;;".toList)))) = [] ∧
    (parse_analysis_response ("SYMPTOMS: ;;;".toList)).symptoms = [symptomsFallbackItem] := by
  refine ⟨?_, ?_, ?_, ?_, ?_, by decide, by decide, by decide⟩
  · intro a l hp
    rw [show parseStep a l = parseStepStripped a (strip l) from rfl,
      stepStripped_symptoms, if_pos hp]
  · intro a l hp
    rw [show parseStep a l = parseStepStripped a (strip l) from rfl,
      stepStripped_treatment, if_pos hp]
  · intro a l hp
    rw [show parseStep a l = parseStepStripped a (strip l) from rfl,
      stepStripped_prevention, if_pos hp]
  · intro t
    exact List.filter_sublist _
  · intro t x h
    exact (splitSemis_mem t x h).1

/-- Claim C6, witness instance of the per-line splitting property. -/
theorem claim_C6_witness :
    (parseStep defaultAnalysis ("SYMPTOMS: a; b".toList)).symptoms =
      splitSemis (strip (removeAll symptomsTag (strip ("SYMPTOMS: a; b".toList)))) :=
  claim_C6.1 defaultAnalysis ("SYMPTOMS: a; b".toList) (by decide)

/-- Claim C7: for any input longer than 200 characters in which no line
assigns a non-empty description, the returned description is the first
200 characters of the raw text followed by the ellipsis marker. -/
theorem claim_C7 (s : List Char) (_hlen : 200 < List.length s)
    (h : ∀ l ∈ linesOf s, descriptionTag.isPrefixOf (strip l) = true →
      strip (removeAll descriptionTag (strip l)) = []) :
    (parse_analysis_response s).description = s.take 200 ++ ellipsis :=
  desc_of_all_empty s h

set_option maxRecDepth 40000 in
/-- Claim C7, witness instance at 201 copies of the letter a. -/
theorem claim_C7_witness :
    (parse_analysis_response (List.replicate 201 'a')).description =
      (List.replicate 201 'a').take 200 ++ ellipsis :=
  claim_C7 (List.replicate 201 'a') (by decide) (by decide)

/-- Claim C9: the fallback guard `len(lines) > 0` is true for every input,
because splitting never yields an empty list; hence whenever no line
assigns a non-empty description — the empty string included — the returned
description is `raw_text[:200] + "..."`, and the description field is
never empty. -/
theorem claim_C9 :
    (∀ s : List Char, 0 < (linesOf s).length) ∧
    (∀ s : List Char,
      (∀ l ∈ linesOf s, descriptionTag.isPrefixOf (strip l) = true →
        strip (removeAll descriptionTag (strip l)) = []) →
      (parse_analysis_response s).description = s.take 200 ++ ellipsis) ∧
    (∀ s : List Char, (parse_analysis_response s).description ≠ []) := by
  refine ⟨linesOf_length_pos, fun s h => desc_of_all_empty s h, ?_⟩
  intro s
  rw [parse_description_char]
  split_ifs with h
  · intro hc
    rcases List.append_eq_nil.mp hc with ⟨-, h2⟩
    exact absurd h2 (by decide)
  · exact h

/-- Claim C9, witness instance: a short tag-free input gets the truncated
raw text (all of it) plus the ellipsis. -/
theorem claim_C9_witness :
    (parse_analysis_response "hi".toList).description =
      ("hi".toList).take 200 ++ ellipsis :=
  claim_C9.2.1 "hi".toList (by decide)

/-- Claim C10: every element of the returned `symptoms`, `treatment` and
`prevention` lists is a non-empty string without leading or trailing
whitespace (it is fixed by `strip`), both for values parsed from tagged
lines and for the fallback single-item lists. -/
theorem claim_C10 (s x : List Char)
    (h : x ∈ (parse_analysis_response s).symptoms ∨
         x ∈ (parse_analysis_response s).treatment ∨
         x ∈ (parse_analysis_response s).prevention) :
    x ≠ [] ∧ strip x = x := by
  rcases h with h | h | h
  · rw [parse_symptoms_char] at h
    exact mem_list_field_aux symptomsTag symptomsFallbackItem _ x (by decide) h
  · rw [parse_treatment_char] at h
    exact mem_list_field_aux treatmentTag treatmentFallbackItem _ x (by decide) h
  · rw [parse_prevention_char] at h
    exact mem_list_field_aux preventionTag preventionFallbackItem _ x (by decide) h

/-- Claim C10, witness instance: the symptoms fallback item. -/
theorem claim_C10_witness :
    symptomsFallbackItem ≠ [] ∧ strip symptomsFallbackItem = symptomsFallbackItem :=
  claim_C10 [] symptomsFallbackItem (Or.inl (by decide))

/-- Claim C8: when the uploaded content type does not start with
`"image/"`, the endpoint answers with HTTP 500 — not 400 — and a detail
string beginning `"Error analyzing image:"`: the `HTTPException(400, ...)`
raised inside the `try` block is caught by the blanket `except Exception`
handler and re-wrapped as a 500. -/
theorem claim_C8 (content_type : List Char) (groq : Except PyExc (List Char))
    (h : imageSlash.isPrefixOf content_type = false) :
    analyze_leaf content_type groq =
      Except.error (.http 500
        ("Error analyzing image: 400: File must be an image (JPEG, PNG, etc.)".toList)) ∧
    ("Error analyzing image:".toList).isPrefixOf
      ("Error analyzing image: 400: File must be an image (JPEG, PNG, etc.)".toList) = true ∧
    (500 : Nat) ≠ 400 := by
  refine ⟨?_, by decide, by decide⟩
  unfold analyze_leaf analyzeBody
  rw [if_pos h]
  rfl

/-- Claim C8, witness instance: a `text/plain` upload. -/
theorem claim_C8_witness :
    analyze_leaf ("text/plain".toList) (Except.ok []) =
      Except.error (.http 500
        ("Error analyzing image: 400: File must be an image (JPEG, PNG, etc.)".toList)) :=
  (claim_C8 ("text/plain".toList) (Except.ok []) (by decide)).1

end LeafDisease
